import Mathlib

/-!
# Xutils `RunAs.c`: command line, credential prompt loop, administrator shortcut

A shallow embedding of `src/RunAs.c`.

* A wide character is a natural number (its code unit); `0` is the NUL.
* A string argument (`const wchar_t *`) is the list of its characters, the
  terminating NUL left out, so `wcslen` is `List.length`.
* A block of memory the code writes to (a `malloc` block, a stack array) is
  the list of its cells, with arbitrary contents before the first write.
  Every write is bounds-checked: a write outside the block makes the function
  return `none`, and so does reading a string from a block that holds no NUL.
* Sizes are natural numbers: the `size_t` arithmetic of the `malloc` arguments
  is taken not to wrap.
* The operating system calls (`CredUIPromptForCredentialsW`,
  `CreateProcessWithLogonW`, `ConvertStringSidToSid`, `LookupAccountSidW`) are
  fields of an environment `Env`; the calls `RunAs` makes are recorded in
  order, each with the memory behind its arguments.
* The `do ... while` loop of `RunAs` takes a bound on its iterations and
  returns `none` when the bound is reached; it ends by itself exactly when an
  iteration is not a rejected logon.
* The constants of `wincred.h`, `winerror.h` and `Sddl.h` are fields of `Sdk`.
-/

namespace Xutils

/-! ## Memory and the C library -/

/-- The block of `n` cells whose cell `i` holds `f i`. -/
def cells (n : Nat) (f : Nat → Nat) : List Nat :=
  (List.range n).map f

/-- Result of `malloc` for `n` wide characters: `none` is the null pointer, and
`some f` a block of `n` cells with the arbitrary initial contents `f`. -/
def malloc (heap : Option (Nat → Nat)) (n : Nat) : Option (List Nat) :=
  heap.map (cells n)

/-- The NUL-terminated string that starts a block: the characters before the
first NUL, and `none` when the block holds no NUL (reading it runs off the
block). -/
def cstr (m : List Nat) : Option (List Nat) :=
  if 0 ∈ m then some (m.takeWhile (fun c => c ≠ 0)) else none

/-- Write `block` into `m` from cell `off` on; `none` when a cell written lies
outside `m`. -/
def store (m : List Nat) (off : Nat) (block : List Nat) : Option (List Nat) :=
  if off + block.length ≤ m.length then
    some (m.take off ++ block ++ m.drop (off + block.length))
  else none

/-- The assignment `*p = c` for `p` at cell `off` of `m`. -/
def poke (m : List Nat) (off : Nat) (c : Nat) : Option (List Nat) :=
  store m off [c]

/-- C `wcscpy (m + off, src)`: the characters of `src` and the NUL. -/
def wcscpy (m : List Nat) (off : Nat) (src : List Nat) : Option (List Nat) :=
  store m off (src ++ [0])

/-- C `wcsncpy (m + off, src, n)`: exactly `n` cells are written, the first
`n` characters of `src`, or all of `src` and NULs up to `n` cells when `src`
is shorter than `n`. -/
def wcsncpy (m : List Nat) (off : Nat) (src : List Nat) (n : Nat) : Option (List Nat) :=
  store m off ((src ++ List.replicate n 0).take n)

/-- `SecureZeroMemory (m, n)`: the first `n` cells of `m` are set to zero. -/
def SecureZeroMemory (m : List Nat) (n : Nat) : Option (List Nat) :=
  store m 0 (List.replicate n 0)

/-! ## `CreateCommandLine` (lines 21-42) -/

/-- `CreateCommandLine`: the result is `none` when a write leaves the block,
else the returned `BOOL` and what `*commandLine` points to (`none` for
`NULL`).  `34` is the double quote and `32` the space. -/
def CreateCommandLine (heap : Option (Nat → Nat)) (programPath programArguments : List Nat) :
    Option (Bool × Option (List Nat)) :=
  let isOk := false
  let programPathLength := programPath.length
  match malloc heap (programPathLength + programArguments.length + 4) with
  | none => some (isOk, none)
  | some m0 => do
    let p := 0
    let m1 ← poke m0 p 34
    let p := p + 1
    let m2 ← wcscpy m1 p programPath
    let p := p + programPathLength
    let m3 ← poke m2 p 34
    let p := p + 1
    let m4 ← poke m3 p 32
    let p := p + 1
    let m5 ← wcscpy m4 p programArguments
    some (true, some m5)

/-! ## Constants of the Windows headers -/

/-- The constants `RunAs.c` takes from `wincred.h`, `winerror.h` and `Sddl.h`.
The headers are not part of the repository, so the values are parameters. -/
structure Sdk where
  CREDUI_MAX_MESSAGE_LENGTH : Nat
  CREDUI_MAX_USERNAME_LENGTH : Nat
  CREDUI_MAX_PASSWORD_LENGTH : Nat
  ERROR_LOGON_FAILURE : Nat
  SDDL_LOCAL_ADMIN : List Nat

/-! ## `CreateCredUILabel` (lines 48-63) -/

/-- `CreateCredUILabel`: the result is `none` when a write leaves the block,
else the returned `BOOL` and what `*label` points to. -/
def CreateCredUILabel (S : Sdk) (heap : Option (Nat → Nat)) (commandLine : List Nat) :
    Option (Bool × Option (List Nat)) :=
  let isOk := false
  let labelLength := commandLine.length
  match malloc heap (labelLength + 1) with
  | none => some (isOk, none)
  | some m0 => do
    let m1 ← wcsncpy m0 0 commandLine (1 + min labelLength S.CREDUI_MAX_MESSAGE_LENGTH)
    some (true, some m1)

/-! ## The operating system -/

/-- What `CredUIPromptForCredentialsW` hands back: its return code (`0` is
`NO_ERROR`) and the contents it leaves in the two buffers, cell by cell. -/
structure PromptResult where
  code : Nat
  userName : Nat → Nat
  password : Nat → Nat

/-- What `CreateProcessWithLogonW` hands back: a non-zero `BOOL`, or zero with
the code `GetLastError` then reports. -/
inductive Launch where
  | started
  | failed (lastError : Nat)
  deriving DecidableEq, Repr

/-- What surrounds `RunAs.c`.  The first argument of the prompt and of the
process creation is the number of the loop iteration (from `0`), so the
answers may differ from one call to the next; the other arguments are the
memory behind the pointers the code passes.
`CredUIPromptForCredentialsW n messageText userName password`,
`CreateProcessWithLogonW n userName password applicationName commandLine
currentDirectory`, `ConvertStringSidToSid stringSid`,
`LookupAccountSidW sid` (the cells written to `adminName`).
`CreateProcessWithLogonW` is taken to leave the command line text as it found
it.  `heap 0` and `heap 1` are the outcomes of the `malloc` calls for the
command line and for the label; `stack 0` and `stack 1` are what the
`userName` and `password` arrays hold before they are first written. -/
structure Env where
  heap : Nat → Option (Nat → Nat)
  stack : Nat → Nat → Nat
  CredUIPromptForCredentialsW : Nat → List Nat → List Nat → List Nat → PromptResult
  CreateProcessWithLogonW : Nat → List Nat → List Nat → List Nat → List Nat → List Nat → Launch
  ConvertStringSidToSid : List Nat → Option Nat
  LookupAccountSidW : Nat → Option (Nat → Nat)

/-- One call out of `RunAs`, with the memory behind its arguments at the call
and what the call handed back. -/
inductive Event where
  | prompt (messageText userName password : List Nat) (code : Nat)
      (userNameOut passwordOut : List Nat)
  | create (userName password applicationName commandLine currentDirectory : List Nat)
      (result : Launch)
  | showLastError
  deriving DecidableEq, Repr

/-- Is the call a credential prompt? -/
def Event.isPrompt : Event → Bool
  | Event.prompt _ _ _ _ _ _ => true
  | _ => false

/-- Is the call a process creation attempt? -/
def Event.isCreate : Event → Bool
  | Event.create _ _ _ _ _ _ => true
  | _ => false

/-- Is the call a process creation that succeeded? -/
def Event.isStarted : Event → Bool
  | Event.create _ _ _ _ _ Launch.started => true
  | _ => false

/-! ## `RunAs` (lines 70-143) -/

/-- State at the exit of the `do ... while` loop. -/
structure LoopExit where
  isOk : Bool
  userName : List Nat
  password : List Nat
  calls : List Event

/-- The `do ... while (repeat)` loop of `RunAs` (lines 98-132), started at
iteration `n` with the given `isOk` and buffers.  `errCode` is read before
`ShowLastError` runs, so it is the code of the failed creation.  `none` when
the iterations allowed run out before the loop ends. -/
def promptLoop (S : Sdk) (E : Env)
    (programPath commandLine workingDirectory messageText : List Nat) :
    Nat → Nat → Bool → List Nat → List Nat → Option LoopExit
  | 0, _, _, _, _ => none
  | fuel + 1, n, isOk, userName, password =>
    let r := E.CredUIPromptForCredentialsW n messageText userName password
    let userName1 := cells (S.CREDUI_MAX_USERNAME_LENGTH + 1) r.userName
    let password1 := cells (S.CREDUI_MAX_PASSWORD_LENGTH + 1) r.password
    let asked := Event.prompt messageText userName password r.code userName1 password1
    if r.code = 0 then
      match E.CreateProcessWithLogonW n userName1 password1 programPath commandLine
          workingDirectory with
      | Launch.started =>
        some ⟨true, userName1, password1,
          [asked, Event.create userName1 password1 programPath commandLine workingDirectory
            Launch.started]⟩
      | Launch.failed errCode =>
        let tried := Event.create userName1 password1 programPath commandLine workingDirectory
          (Launch.failed errCode)
        if errCode = S.ERROR_LOGON_FAILURE then
          (promptLoop S E programPath commandLine workingDirectory messageText
            fuel (n + 1) isOk userName1 password1).map
            (fun o => { o with calls := asked :: tried :: Event.showLastError :: o.calls })
        else
          some ⟨isOk, userName1, password1, [asked, tried, Event.showLastError]⟩
    else
      some ⟨isOk, userName1, password1, [asked]⟩

/-- What `RunAs` leaves behind: the returned `BOOL`, the contents of the
`userName` and `password` arrays when control leaves their block (`none` when
the block is never entered), and the operating system calls made, in order. -/
structure RunResult where
  isOk : Bool
  buffers : Option (List Nat × List Nat)
  calls : List Event

/-- `RunAs`.  `fuel` bounds the iterations of the loop.  `none` when a write
leaves its block, a string read runs off its block, or the iterations run
out. -/
def RunAs (S : Sdk) (E : Env) (fuel : Nat)
    (programPath programArguments preselectedUserName workingDirectory : List Nat) :
    Option RunResult :=
  let isOk := false
  match CreateCommandLine (E.heap 0) programPath programArguments with
  | none => none
  | some (false, _) => some ⟨isOk, none, []⟩
  | some (true, none) => none
  | some (true, some commandLine) =>
    match cstr commandLine with
    | none => none
    | some text =>
      match CreateCredUILabel S (E.heap 1) text with
      | none => none
      | some (false, _) => some ⟨isOk, none, []⟩
      | some (true, none) => none
      | some (true, some messageText) => do
        let userName := cells (S.CREDUI_MAX_USERNAME_LENGTH + 1) (E.stack 0)
        let password := cells (S.CREDUI_MAX_PASSWORD_LENGTH + 1) (E.stack 1)
        let userName ← SecureZeroMemory userName (S.CREDUI_MAX_USERNAME_LENGTH + 1)
        let password ← SecureZeroMemory password (S.CREDUI_MAX_PASSWORD_LENGTH + 1)
        let userName ← wcsncpy userName 0 preselectedUserName
          (S.CREDUI_MAX_USERNAME_LENGTH + 1)
        let o ← promptLoop S E programPath commandLine workingDirectory messageText
          fuel 0 isOk userName password
        let userName ← SecureZeroMemory o.userName (S.CREDUI_MAX_USERNAME_LENGTH + 1)
        let password ← SecureZeroMemory o.password (S.CREDUI_MAX_PASSWORD_LENGTH + 1)
        some ⟨o.isOk, some (userName, password), o.calls⟩

/-! ## `SuDo` (lines 148-169) -/

/-- `SuDo`: the administrator name is looked up, then `RunAs` runs with it. -/
def SuDo (S : Sdk) (E : Env) (fuel : Nat)
    (programPath programArguments workingDirectory : List Nat) : Option RunResult :=
  let retVal := false
  match E.ConvertStringSidToSid S.SDDL_LOCAL_ADMIN with
  | none => some ⟨retVal, none, []⟩
  | some adminSid =>
    match E.LookupAccountSidW adminSid with
    | none => some ⟨retVal, none, []⟩
    | some written =>
      match cstr (cells (S.CREDUI_MAX_USERNAME_LENGTH + 1) written) with
      | none => none
      | some adminName =>
        RunAs S E fuel programPath programArguments adminName workingDirectory

/-- The shape of a finished run of the loop, the answers of the operating
system left open: `Steps S P c W m b u p o` says that the loop entered with
`isOk = b` and the buffers `u`, `p` can end in `o`. -/
inductive Steps (S : Sdk) (P c W m : List Nat) (b : Bool) :
    List Nat → List Nat → LoopExit → Prop where
  | cancel (u p : List Nat) (code : Nat) (u1 p1 : List Nat) (h : code ≠ 0) :
      Steps S P c W m b u p ⟨b, u1, p1, [Event.prompt m u p code u1 p1]⟩
  | started (u p u1 p1 : List Nat) :
      Steps S P c W m b u p
        ⟨true, u1, p1, [Event.prompt m u p 0 u1 p1, Event.create u1 p1 P c W Launch.started]⟩
  | failed (u p u1 p1 : List Nat) (res : Launch) (h : res ≠ Launch.started)
      (hne : res ≠ Launch.failed S.ERROR_LOGON_FAILURE) :
      Steps S P c W m b u p
        ⟨b, u1, p1,
          [Event.prompt m u p 0 u1 p1, Event.create u1 p1 P c W res, Event.showLastError]⟩
  | again (u p u1 p1 : List Nat) (o1 : LoopExit) (h : Steps S P c W m b u1 p1 o1) :
      Steps S P c W m b u p
        ⟨o1.isOk, o1.userName, o1.password,
          Event.prompt m u p 0 u1 p1 ::
            Event.create u1 p1 P c W (Launch.failed S.ERROR_LOGON_FAILURE) ::
            Event.showLastError :: o1.calls⟩

/-- Iteration `i` ends the loop whatever it is handed: when its prompt is
submitted, its process creation does not fail with `ERROR_LOGON_FAILURE`. -/
def Env.endsAt (S : Sdk) (E : Env) (i : Nat) : Prop :=
  ∀ m u p u1 p1 a c w, (E.CredUIPromptForCredentialsW i m u p).code = 0 →
    E.CreateProcessWithLogonW i u1 p1 a c w ≠ Launch.failed S.ERROR_LOGON_FAILURE

/-- Iteration `i` is a rejected logon whatever it is handed: the prompt is
submitted and the process creation fails with `ERROR_LOGON_FAILURE`. -/
def Env.rejectsAt (S : Sdk) (E : Env) (i : Nat) : Prop :=
  (∀ m u p, (E.CredUIPromptForCredentialsW i m u p).code = 0) ∧
    ∀ u1 p1 a c w, E.CreateProcessWithLogonW i u1 p1 a c w = Launch.failed S.ERROR_LOGON_FAILURE

/-! ## Scenarios -/

/-- Cell contents holding the string `s` and NULs after it. -/
def typed (s : List Nat) : Nat → Nat :=
  fun i => s.getD i 0

/-- Small constants for worked examples: message length 8, user name length
5, password length 4, logon failure code 1326, SID string `LA`. -/
def tinySdk : Sdk :=
  ⟨8, 5, 4, 1326, [76, 65]⟩

/-- Constants for worked examples with room for the strings used: message
length 40, user name length 8, password length 6. -/
def demoSdk : Sdk :=
  ⟨40, 8, 6, 1326, [76, 65]⟩

/-- The path `C:\tools\app.exe`. -/
def appPath : List Nat :=
  [67, 58, 92, 116, 111, 111, 108, 115, 92, 97, 112, 112, 46, 101, 120, 101]

/-- The arguments `--flag`. -/
def flagArgs : List Nat :=
  [45, 45, 102, 108, 97, 103]

/-- The directory `C:\tools`. -/
def toolsDir : List Nat :=
  [67, 58, 92, 116, 111, 111, 108, 115]

/-- The command line `"C:\tools\app.exe" --flag`. -/
def appCommand : List Nat :=
  [34, 67, 58, 92, 116, 111, 111, 108, 115, 92, 97, 112, 112, 46, 101, 120, 101, 34, 32,
    45, 45, 102, 108, 97, 103]

/-- The user name `alice`. -/
def alice : List Nat :=
  [97, 108, 105, 99, 101]

/-- The user name `bob`. -/
def bob : List Nat :=
  [98, 111, 98]

/-- The password `bad`. -/
def badWord : List Nat :=
  [98, 97, 100]

/-- The password `good`. -/
def goodWord : List Nat :=
  [103, 111, 111, 100]

/-- One scripted iteration: the prompt's return code, the user name and the
password it leaves in the buffers, and the outcome of the process creation
(consulted only when the prompt is submitted). -/
structure Answer where
  code : Nat
  userName : List Nat
  password : List Nat
  launch : Launch

/-- The environment that plays `script`, one answer per iteration; past the
end of the script the prompt is cancelled (code 1223) and leaves the buffers
as they are.  Both allocations succeed, fresh heap cells hold 7 and fresh stack
cells 9; the administrator SID `LA` resolves to the account `alice`. -/
def scripted (script : List Answer) : Env where
  heap := fun _ => some (fun _ => 7)
  stack := fun _ _ => 9
  CredUIPromptForCredentialsW := fun n _ u p =>
    match script.get? n with
    | some a => ⟨a.code, typed a.userName, typed a.password⟩
    | none => ⟨1223, fun i => u.getD i 0, fun i => p.getD i 0⟩
  CreateProcessWithLogonW := fun n _ _ _ _ _ =>
    match script.get? n with
    | some a => a.launch
    | none => Launch.failed 2
  ConvertStringSidToSid := fun s => if s = [76, 65] then some 544 else none
  LookupAccountSidW := fun _ => some (typed alice)

/-- Wrong password twice (as `bob`), then a correct one. -/
def wrongTwice : Env :=
  scripted [⟨0, bob, badWord, Launch.failed 1326⟩, ⟨0, bob, badWord, Launch.failed 1326⟩,
    ⟨0, bob, goodWord, Launch.started⟩]

/-- Valid credentials at the first prompt. -/
def rightAway : Env :=
  scripted [⟨0, alice, goodWord, Launch.started⟩]

/-- One wrong password, then the prompt is cancelled. -/
def wrongThenCancel : Env :=
  scripted [⟨0, bob, badWord, Launch.failed 1326⟩]

/-- What `RunAs` leaves behind in the scenario `wrongThenCancel`, with the
constants `demoSdk`, for `C:\tools\app.exe`, `--flag`, `alice`, `C:\tools`. -/
def wrongThenCancelRun : RunResult :=
  ⟨false, some (List.replicate 9 0, List.replicate 7 0),
    [Event.prompt (appCommand ++ [0]) (alice ++ [0, 0, 0, 0]) (List.replicate 7 0) 0
        (bob ++ List.replicate 6 0) (badWord ++ List.replicate 4 0),
      Event.create (bob ++ List.replicate 6 0) (badWord ++ List.replicate 4 0) appPath
        (appCommand ++ [0]) toolsDir (Launch.failed 1326),
      Event.showLastError,
      Event.prompt (appCommand ++ [0]) (bob ++ List.replicate 6 0)
        (badWord ++ List.replicate 4 0) 1223
        (bob ++ List.replicate 6 0) (badWord ++ List.replicate 4 0)]⟩

/-- What `RunAs` leaves behind in the scenario `rightAway`, with the constants
`demoSdk`, for `C:\tools\app.exe`, `--flag`, `alice`, `C:\tools`. -/
def rightAwayRun : RunResult :=
  ⟨true, some (List.replicate 9 0, List.replicate 7 0),
    [Event.prompt (appCommand ++ [0]) (alice ++ [0, 0, 0, 0]) (List.replicate 7 0) 0
        (alice ++ [0, 0, 0, 0]) (goodWord ++ [0, 0, 0]),
      Event.create (alice ++ [0, 0, 0, 0]) (goodWord ++ [0, 0, 0]) appPath
        (appCommand ++ [0]) toolsDir Launch.started]⟩

/-- The password buffer handed to a prompt. -/
def Event.passwordIn : Event → Option (List Nat)
  | Event.prompt _ _ password _ _ _ => some password
  | _ => none

/-! ## Memory lemmas -/

theorem cells_length (n : Nat) (f : Nat → Nat) : (cells n f).length = n := by
  simp [cells]

theorem store_append (a rest blk : List Nat) (h : blk.length ≤ rest.length) :
    store (a ++ rest) a.length blk = some (a ++ blk ++ rest.drop blk.length) := by
  unfold store
  have hle : a.length + blk.length ≤ (a ++ rest).length := by
    simp only [List.length_append]; omega
  rw [if_pos hle]
  simp

theorem store_zero (m blk : List Nat) (h : blk.length ≤ m.length) :
    store m 0 blk = some (blk ++ m.drop blk.length) := by
  simpa using store_append [] m blk h

theorem store_length (m blk r : List Nat) (off : Nat) (h : store m off blk = some r) :
    r.length = m.length := by
  unfold store at h
  split at h
  · cases h
    simp only [List.length_append, List.length_take, List.length_drop]
    omega
  · cases h

theorem cstr_terminated (s t : List Nat) (h : 0 ∉ s) : cstr (s ++ 0 :: t) = some s := by
  unfold cstr
  rw [if_pos (by simp)]
  congr 1
  rw [List.takeWhile_append_of_pos]
  · simp
  · intro c hc
    have : c ≠ 0 := fun e => h (e ▸ hc)
    simpa using this

theorem cstr_unterminated (m : List Nat) (h : 0 ∉ m) : cstr m = none := by
  unfold cstr
  rw [if_neg h]

theorem store_at (m a rest blk : List Nat) (off : Nat) (hm : m = a ++ rest)
    (hoff : off = a.length) (h : blk.length ≤ rest.length) :
    store m off blk = some (a ++ blk ++ rest.drop blk.length) := by
  subst hm hoff
  exact store_append a rest blk h

/-! ## `CreateCommandLine` -/

theorem CreateCommandLine_block (g : Nat → Nat) (P A : List Nat) :
    CreateCommandLine (some g) P A = some (true, some (34 :: P ++ 34 :: 32 :: A ++ [0])) := by
  unfold CreateCommandLine malloc poke wcscpy
  simp only [Option.map_some']
  generalize hm : cells (P.length + A.length + 4) g = m0
  have hlen : m0.length = P.length + A.length + 4 := by rw [← hm, cells_length]
  rw [store_zero m0 [34] (by simp [hlen])]
  simp only [Option.bind_eq_bind, Option.some_bind]
  rw [store_at _ [34] (m0.drop 1) (P ++ [0]) _ (by simp) (by simp) (by simp [hlen]; omega)]
  simp only [Option.some_bind]
  rw [store_at _ (34 :: P) (0 :: (m0.drop 1).drop (P.length + 1)) [34] _ (by simp) (by simp; omega)
    (by simp)]
  simp only [Option.some_bind]
  rw [store_at _ (34 :: P ++ [34]) ((m0.drop 1).drop (P.length + 1)) [32] _ (by simp)
    (by simp; omega) (by simp [hlen]; omega)]
  simp only [Option.some_bind]
  rw [store_at _ (34 :: P ++ [34, 32]) (((m0.drop 1).drop (P.length + 1)).drop 1) (A ++ [0]) _
    (by simp) (by simp; omega) (by simp [hlen]; omega)]
  have hnil : ((((m0.drop 1).drop (P.length + 1)).drop 1).drop (A ++ [0]).length) = [] := by
    apply List.eq_nil_of_length_eq_zero
    simp [hlen]
    omega
  rw [hnil]
  simp

theorem CreateCommandLine_null (P A : List Nat) :
    CreateCommandLine none P A = some (false, none) := by
  simp [CreateCommandLine, malloc]

/-! ## `wcsncpy`, `CreateCredUILabel`, `SecureZeroMemory` -/

theorem wcsncpy_block_length (src : List Nat) (n : Nat) :
    ((src ++ List.replicate n 0).take n).length = n := by
  simp

theorem wcsncpy_block_short (src : List Nat) (n : Nat) (h : src.length < n) :
    (src ++ List.replicate n 0).take n = src ++ List.replicate (n - src.length) 0 := by
  rw [List.take_append_eq_append_take, List.take_of_length_le (by omega), List.take_replicate]
  congr 2
  omega

theorem wcsncpy_block_long (src : List Nat) (n : Nat) (h : n ≤ src.length) :
    (src ++ List.replicate n 0).take n = src.take n := by
  rw [List.take_append_eq_append_take]
  have : n - src.length = 0 := by omega
  simp [this]

theorem CreateCredUILabel_block (S : Sdk) (g : Nat → Nat) (C : List Nat) :
    CreateCredUILabel S (some g) C = some (true, some
      ((C ++ List.replicate (1 + min C.length S.CREDUI_MAX_MESSAGE_LENGTH) 0).take
          (1 + min C.length S.CREDUI_MAX_MESSAGE_LENGTH) ++
        (cells (C.length + 1) g).drop (1 + min C.length S.CREDUI_MAX_MESSAGE_LENGTH))) := by
  unfold CreateCredUILabel malloc wcsncpy
  simp only [Option.map_some']
  rw [store_zero _ _ (by rw [wcsncpy_block_length, cells_length]; omega)]
  simp only [Option.bind_eq_bind, Option.some_bind, wcsncpy_block_length]

theorem CreateCredUILabel_null (S : Sdk) (C : List Nat) :
    CreateCredUILabel S none C = some (false, none) := by
  simp [CreateCredUILabel, malloc]

theorem SecureZeroMemory_all (m : List Nat) (n : Nat) (h : m.length = n) :
    SecureZeroMemory m n = some (List.replicate n 0) := by
  unfold SecureZeroMemory
  rw [store_zero _ _ (by simp [h])]
  simp [h]

theorem wcsncpy_whole (m src : List Nat) (n : Nat) (h : m.length = n) :
    wcsncpy m 0 src n = some ((src ++ List.replicate n 0).take n) := by
  unfold wcsncpy
  rw [store_zero _ _ (by simp [h])]
  simp [h]

/-! ## The prompt loop -/

/-- One iteration of the loop, read backwards from its result: the four ways
an iteration can end. -/
theorem promptLoop_inv (S : Sdk) (E : Env) (P c W m : List Nat) (fuel n : Nat) (b : Bool)
    (u p : List Nat) (o : LoopExit) (h : promptLoop S E P c W m fuel n b u p = some o) :
    ∃ fuel1, fuel = fuel1 + 1 ∧
      ((E.CredUIPromptForCredentialsW n m u p).code ≠ 0 ∧
        o = ⟨b, cells (S.CREDUI_MAX_USERNAME_LENGTH + 1) (E.CredUIPromptForCredentialsW n m u p).userName,
          cells (S.CREDUI_MAX_PASSWORD_LENGTH + 1) (E.CredUIPromptForCredentialsW n m u p).password,
          [Event.prompt m u p (E.CredUIPromptForCredentialsW n m u p).code
            (cells (S.CREDUI_MAX_USERNAME_LENGTH + 1) (E.CredUIPromptForCredentialsW n m u p).userName)
            (cells (S.CREDUI_MAX_PASSWORD_LENGTH + 1) (E.CredUIPromptForCredentialsW n m u p).password)]⟩
      ∨ (E.CredUIPromptForCredentialsW n m u p).code = 0 ∧
        ∃ u1 p1 res, u1 = cells (S.CREDUI_MAX_USERNAME_LENGTH + 1) (E.CredUIPromptForCredentialsW n m u p).userName ∧
          p1 = cells (S.CREDUI_MAX_PASSWORD_LENGTH + 1) (E.CredUIPromptForCredentialsW n m u p).password ∧
          res = E.CreateProcessWithLogonW n u1 p1 P c W ∧
          ((res = Launch.started ∧
              o = ⟨true, u1, p1, [Event.prompt m u p 0 u1 p1, Event.create u1 p1 P c W res]⟩)
            ∨ (res ≠ Launch.started ∧ res ≠ Launch.failed S.ERROR_LOGON_FAILURE ∧
              o = ⟨b, u1, p1,
                [Event.prompt m u p 0 u1 p1, Event.create u1 p1 P c W res, Event.showLastError]⟩)
            ∨ (res = Launch.failed S.ERROR_LOGON_FAILURE ∧
              ∃ o1, promptLoop S E P c W m fuel1 (n + 1) b u1 p1 = some o1 ∧
                o = ⟨o1.isOk, o1.userName, o1.password,
                  Event.prompt m u p 0 u1 p1 :: Event.create u1 p1 P c W res ::
                    Event.showLastError :: o1.calls⟩))) := by
  cases fuel with
  | zero => simp [promptLoop] at h
  | succ fuel1 =>
    refine ⟨fuel1, rfl, ?_⟩
    simp only [promptLoop] at h
    split at h
    · rename_i hcode
      right
      refine ⟨hcode, _, _, _, rfl, rfl, rfl, ?_⟩
      split at h
      · rename_i hres
        left
        refine ⟨hres, ?_⟩
        cases h
        rw [hcode, hres]
      · rename_i errCode hres
        split at h
        · rename_i herr
          right; right
          subst herr
          refine ⟨hres, ?_⟩
          rw [Option.map_eq_some'] at h
          obtain ⟨o1, ho1, rfl⟩ := h
          refine ⟨o1, ho1, ?_⟩
          rw [hcode, hres]
        · rename_i herr
          right; left
          refine ⟨by rw [hres]; simp, by rw [hres]; simpa using herr, ?_⟩
          cases h
          rw [hcode, hres]
    · rename_i hcode
      left
      refine ⟨hcode, ?_⟩
      cases h
      rfl

theorem promptLoop_steps (S : Sdk) (E : Env) (P c W m : List Nat) (b : Bool) (fuel : Nat) :
    ∀ (n : Nat) (u p : List Nat) (o : LoopExit),
      promptLoop S E P c W m fuel n b u p = some o → Steps S P c W m b u p o := by
  induction fuel with
  | zero => intro n u p o h; simp [promptLoop] at h
  | succ fuel ih =>
    intro n u p o h
    obtain ⟨fuel1, hf, hcase⟩ := promptLoop_inv S E P c W m (fuel + 1) n b u p o h
    have hf1 : fuel1 = fuel := by omega
    subst hf1
    rcases hcase with ⟨hcode, rfl⟩ | ⟨_, u1, p1, res, _, _, _, hres⟩
    · exact Steps.cancel u p _ _ _ hcode
    · rcases hres with ⟨hs, rfl⟩ | ⟨hs, hne, rfl⟩ | ⟨hs, o1, ho1, rfl⟩
      · rw [hs]; exact Steps.started u p u1 p1
      · exact Steps.failed u p u1 p1 res hs hne
      · rw [hs]; exact Steps.again u p u1 p1 o1 (ih _ _ _ _ ho1)

theorem promptLoop_lengths (S : Sdk) (E : Env) (P c W m : List Nat) (b : Bool) (fuel : Nat) :
    ∀ (n : Nat) (u p : List Nat) (o : LoopExit),
      promptLoop S E P c W m fuel n b u p = some o →
        o.userName.length = S.CREDUI_MAX_USERNAME_LENGTH + 1 ∧
        o.password.length = S.CREDUI_MAX_PASSWORD_LENGTH + 1 := by
  induction fuel with
  | zero => intro n u p o h; simp [promptLoop] at h
  | succ fuel ih =>
    intro n u p o h
    obtain ⟨fuel1, hf, hcase⟩ := promptLoop_inv S E P c W m (fuel + 1) n b u p o h
    have hf1 : fuel1 = fuel := by omega
    subst hf1
    rcases hcase with ⟨hcode, rfl⟩ | ⟨_, u1, p1, res, hu, hp, _, hres⟩
    · exact ⟨cells_length _ _, cells_length _ _⟩
    · rcases hres with ⟨hs, rfl⟩ | ⟨hs, hne, rfl⟩ | ⟨hs, o1, ho1, rfl⟩
      · subst hu hp; exact ⟨cells_length _ _, cells_length _ _⟩
      · subst hu hp; exact ⟨cells_length _ _, cells_length _ _⟩
      · exact ih _ _ _ o1 ho1

/-- Every finished run starts with a prompt that is handed the buffers the
loop was entered with. -/
theorem Steps.first (S : Sdk) (P c W m : List Nat) (b : Bool) (u p : List Nat) (o : LoopExit)
    (h : Steps S P c W m b u p o) :
    ∃ code u1 p1 rest, o.calls = Event.prompt m u p code u1 p1 :: rest := by
  cases h with
  | cancel code u1 p1 h => exact ⟨_, _, _, _, rfl⟩
  | started u1 p1 => exact ⟨_, _, _, _, rfl⟩
  | failed u1 p1 res h hne => exact ⟨_, _, _, _, rfl⟩
  | again u1 p1 o1 h => exact ⟨_, _, _, _, rfl⟩

/-- Every creation attempt of a finished run: its arguments, and the prompt
right before it. -/
theorem Steps.create_args (S : Sdk) (P c W m : List Nat) (b : Bool) (u p : List Nat)
    (o : LoopExit) (h : Steps S P c W m b u p o) :
    ∀ (pre post : List Event) (un pw a cl w : List Nat) (res : Launch),
      o.calls = pre ++ Event.create un pw a cl w res :: post →
        a = P ∧ cl = c ∧ w = W ∧
          ∃ pre1 m1 ui pi, pre = pre1 ++ [Event.prompt m1 ui pi 0 un pw] := by
  induction h with
  | cancel u p code u1 p1 h =>
    intro pre post un pw a cl w res hc
    rcases pre with _ | ⟨e, pre⟩ <;> simp at hc
  | started u p u1 p1 =>
    intro pre post un pw a cl w res hc
    rcases pre with _ | ⟨e, _ | ⟨e2, pre⟩⟩ <;> simp at hc
    obtain ⟨rfl, ⟨rfl, rfl, rfl, rfl, rfl, _⟩, _⟩ := hc
    exact ⟨rfl, rfl, rfl, [], _, _, _, rfl⟩
  | failed u p u1 p1 r0 h hne =>
    intro pre post un pw a cl w res hc
    rcases pre with _ | ⟨e, _ | ⟨e2, _ | ⟨e3, pre⟩⟩⟩ <;> simp at hc
    obtain ⟨rfl, ⟨rfl, rfl, rfl, rfl, rfl, _⟩, _⟩ := hc
    exact ⟨rfl, rfl, rfl, [], _, _, _, rfl⟩
  | again u p u1 p1 o1 h ih =>
    intro pre post un pw a cl w res hc
    rcases pre with _ | ⟨e, _ | ⟨e2, _ | ⟨e3, pre⟩⟩⟩ <;> simp at hc
    · obtain ⟨rfl, ⟨rfl, rfl, rfl, rfl, rfl, _⟩, _⟩ := hc
      exact ⟨rfl, rfl, rfl, [], _, _, _, rfl⟩
    · obtain ⟨rfl, rfl, rfl, hrest⟩ := hc
      obtain ⟨ha, hcl, hw, pre1, m1, ui, pi, hpre⟩ := ih pre post un pw a cl w res hrest
      refine ⟨ha, hcl, hw, Event.prompt m u p 0 u1 p1 ::
        Event.create u1 p1 P c W (Launch.failed S.ERROR_LOGON_FAILURE) ::
        Event.showLastError :: pre1, m1, ui, pi, ?_⟩
      rw [hpre]
      rfl

/-- What follows a creation attempt in a finished run. -/
theorem Steps.after_create (S : Sdk) (P c W m : List Nat) (b : Bool) (u p : List Nat)
    (o : LoopExit) (h : Steps S P c W m b u p o) :
    ∀ (pre post : List Event) (un pw a cl w : List Nat) (res : Launch),
      o.calls = pre ++ Event.create un pw a cl w res :: post →
        (res = Launch.failed S.ERROR_LOGON_FAILURE →
          ∃ m1 ui pi code u1 p1 rest,
            post = Event.showLastError :: Event.prompt m1 ui pi code u1 p1 :: rest) ∧
        (res ≠ Launch.failed S.ERROR_LOGON_FAILURE → ∀ e ∈ post, e = Event.showLastError) := by
  induction h with
  | cancel u p code u1 p1 h =>
    intro pre post un pw a cl w res hc
    rcases pre with _ | ⟨e, pre⟩ <;> simp at hc
  | started u p u1 p1 =>
    intro pre post un pw a cl w res hc
    rcases pre with _ | ⟨e, _ | ⟨e2, pre⟩⟩ <;> simp at hc
    obtain ⟨-, ⟨-, -, -, -, -, hres⟩, hpost⟩ := hc
    subst hres hpost
    exact ⟨fun hh => (by cases hh), fun _ e he => (by simp at he)⟩
  | failed u p u1 p1 r0 h hne =>
    intro pre post un pw a cl w res hc
    rcases pre with _ | ⟨e, _ | ⟨e2, _ | ⟨e3, pre⟩⟩⟩ <;> simp at hc
    obtain ⟨-, ⟨-, -, -, -, -, hres⟩, hpost⟩ := hc
    subst hres hpost
    exact ⟨fun hh => absurd hh hne, fun _ e he => by simpa using he⟩
  | again u p u1 p1 o1 h ih =>
    intro pre post un pw a cl w res hc
    rcases pre with _ | ⟨e, _ | ⟨e2, _ | ⟨e3, pre⟩⟩⟩ <;> simp at hc
    · obtain ⟨-, ⟨-, -, -, -, -, hres⟩, hpost⟩ := hc
      subst hres hpost
      obtain ⟨code, u2, p2, rest, hfirst⟩ := Steps.first S P c W m b u1 p1 o1 h
      refine ⟨fun _ => ⟨_, _, _, _, _, _, _, by rw [hfirst]⟩, fun hh => absurd rfl hh⟩
    · obtain ⟨rfl, rfl, rfl, hrest⟩ := hc
      exact ih pre post un pw a cl w res hrest

/-- Between two prompts with no prompt in between the code leaves both buffers
alone: the later prompt is handed what the earlier one left. -/
theorem Steps.carried (S : Sdk) (P c W m : List Nat) (b : Bool) (u p : List Nat)
    (o : LoopExit) (h : Steps S P c W m b u p o) :
    ∀ (pre mid post : List Event) (m1 ui pi : List Nat) (code : Nat) (u1 p1 : List Nat)
      (m2 ui2 pi2 : List Nat) (code2 : Nat) (u2 p2 : List Nat),
      o.calls = pre ++ Event.prompt m1 ui pi code u1 p1 ::
        (mid ++ Event.prompt m2 ui2 pi2 code2 u2 p2 :: post) →
      (∀ e ∈ mid, e.isPrompt = false) → ui2 = u1 ∧ pi2 = p1 := by
  induction h with
  | cancel u p code u1 p1 h =>
    intro pre mid post m1 ui pi code u1 p1 m2 ui2 pi2 code2 u2 p2 hc hmid
    rcases pre with _ | ⟨e, pre⟩ <;> simp at hc
  | started u p u1 p1 =>
    intro pre mid post m1 ui pi code u1 p1 m2 ui2 pi2 code2 u2 p2 hc hmid
    rcases pre with _ | ⟨e, _ | ⟨e2, pre⟩⟩ <;> simp at hc
    rcases mid with _ | ⟨x, mid⟩ <;> simp at hc
  | failed u p u1 p1 r0 h hne =>
    intro pre mid post m1 ui pi code u1 p1 m2 ui2 pi2 code2 u2 p2 hc hmid
    rcases pre with _ | ⟨e, _ | ⟨e2, _ | ⟨e3, pre⟩⟩⟩ <;> simp at hc
    rcases mid with _ | ⟨x, _ | ⟨y, mid⟩⟩ <;> simp at hc
  | again u p u1 p1 o1 h ih =>
    intro pre mid post m1 ui pi code u1' p1' m2 ui2 pi2 code2 u2 p2 hc hmid
    obtain ⟨code3, u3, p3, rest, hfirst⟩ := Steps.first S P c W m b u1 p1 o1 h
    rcases pre with _ | ⟨e, _ | ⟨e2, _ | ⟨e3, pre⟩⟩⟩ <;> simp at hc
    · obtain ⟨⟨rfl, rfl, rfl, rfl, rfl, rfl⟩, hrest⟩ := hc
      rcases mid with _ | ⟨x, _ | ⟨y, _ | ⟨z, mid⟩⟩⟩ <;> simp at hrest
      · obtain ⟨rfl, rfl, hrest⟩ := hrest
        rw [hfirst] at hrest
        simp at hrest
        exact ⟨hrest.1.2.1.symm, hrest.1.2.2.1.symm⟩
      · obtain ⟨rfl, rfl, hrest⟩ := hrest
        rw [hfirst] at hrest
        simp at hrest
        have hz := hmid z (by simp)
        rw [← hrest.1] at hz
        simp [Event.isPrompt] at hz
    · obtain ⟨rfl, rfl, rfl, hrest⟩ := hc
      exact ih pre mid post m1 ui pi code u1' p1' m2 ui2 pi2 code2 u2 p2 hrest hmid

/-- A prompt that reports anything but success is the last call of the run,
and `isOk` is what it was at loop entry. -/
theorem Steps.cancel_last (S : Sdk) (P c W m : List Nat) (b : Bool) (u p : List Nat)
    (o : LoopExit) (h : Steps S P c W m b u p o) :
    ∀ (pre post : List Event) (m1 ui pi : List Nat) (code : Nat) (u1 p1 : List Nat),
      o.calls = pre ++ Event.prompt m1 ui pi code u1 p1 :: post → code ≠ 0 →
        post = [] ∧ o.isOk = b := by
  induction h with
  | cancel u p code u1 p1 h =>
    intro pre post m1 ui pi code u1 p1 hc hcode
    rcases pre with _ | ⟨e, pre⟩ <;> simp at hc
    exact ⟨hc.2, rfl⟩
  | started u p u1 p1 =>
    intro pre post m1 ui pi code u1 p1 hc hcode
    rcases pre with _ | ⟨e, _ | ⟨e2, pre⟩⟩ <;> simp at hc
    exact absurd hc.1.2.2.2.1.symm hcode
  | failed u p u1 p1 r0 h hne =>
    intro pre post m1 ui pi code u1 p1 hc hcode
    rcases pre with _ | ⟨e, _ | ⟨e2, _ | ⟨e3, pre⟩⟩⟩ <;> simp at hc
    exact absurd hc.1.2.2.2.1.symm hcode
  | again u p u1 p1 o1 h ih =>
    intro pre post m1 ui pi code u1' p1' hc hcode
    rcases pre with _ | ⟨e, _ | ⟨e2, _ | ⟨e3, pre⟩⟩⟩ <;> simp at hc
    · exact absurd hc.1.2.2.2.1.symm hcode
    · obtain ⟨rfl, rfl, rfl, hrest⟩ := hc
      exact ih pre post m1 ui pi code u1' p1' hrest hcode

/-- The loop ends within `k + 1` iterations when iteration `n + k` ends it. -/
theorem promptLoop_returns (S : Sdk) (E : Env) (P c W m : List Nat) (b : Bool) (fuel : Nat) :
    ∀ (n k : Nat) (u p : List Nat), E.endsAt S (n + k) → k < fuel →
      ∃ o, promptLoop S E P c W m fuel n b u p = some o := by
  induction fuel with
  | zero => intro n k u p _ hk; omega
  | succ fuel ih =>
    intro n k u p hend hk
    simp only [promptLoop]
    split
    · rename_i hcode
      split
      · exact ⟨_, rfl⟩
      · rename_i errCode hres
        split
        · rename_i herr
          subst herr
          cases k with
          | zero => exact absurd hres (hend _ _ _ _ _ _ _ _ hcode)
          | succ k =>
            have hend1 : E.endsAt S (n + 1 + k) := by
              have : n + 1 + k = n + (k + 1) := by omega
              rw [this]; exact hend
            obtain ⟨o1, ho1⟩ := ih (n + 1) k _ _ hend1 (by omega)
            rw [ho1]
            exact ⟨_, rfl⟩
        · exact ⟨_, rfl⟩
    · exact ⟨_, rfl⟩

/-- After `k` rejected logons the loop stands at iteration `n + k`, having made
`k` prompts and `k` creation attempts, none of them successful. -/
theorem promptLoop_rejected (S : Sdk) (E : Env) (P c W m : List Nat) (b : Bool) (k : Nat) :
    ∀ (n : Nat) (u p : List Nat), (∀ i, i < k → E.rejectsAt S (n + i)) →
      ∃ (u1 p1 : List Nat) (pre : List Event),
        pre.countP Event.isPrompt = k ∧ pre.countP Event.isCreate = k ∧
        pre.countP Event.isStarted = 0 ∧
        ∀ fuel, promptLoop S E P c W m (fuel + k) n b u p =
          (promptLoop S E P c W m fuel (n + k) b u1 p1).map
            (fun o => ⟨o.isOk, o.userName, o.password, pre ++ o.calls⟩) := by
  induction k with
  | zero =>
    intro n u p _
    refine ⟨u, p, [], rfl, rfl, rfl, fun fuel => ?_⟩
    cases h : promptLoop S E P c W m fuel n b u p <;> simp [h]
  | succ k ih =>
    intro n u p hrej
    have h0 : E.rejectsAt S n := hrej 0 (by omega)
    generalize hua : cells (S.CREDUI_MAX_USERNAME_LENGTH + 1)
      (E.CredUIPromptForCredentialsW n m u p).userName = ua
    generalize hpa : cells (S.CREDUI_MAX_PASSWORD_LENGTH + 1)
      (E.CredUIPromptForCredentialsW n m u p).password = pa
    obtain ⟨u1, p1, pre, hp, hc, hs, hrun⟩ := ih (n + 1) ua pa (fun i hi => by
      have := hrej (i + 1) (by omega)
      have e : n + 1 + i = n + (i + 1) := by omega
      rw [e]; exact this)
    refine ⟨u1, p1, Event.prompt m u p 0 ua pa ::
      Event.create ua pa P c W (Launch.failed S.ERROR_LOGON_FAILURE) ::
      Event.showLastError :: pre, ?_, ?_, ?_, fun fuel => ?_⟩
    · simp [List.countP_cons, Event.isPrompt, hp]
    · simp [List.countP_cons, Event.isCreate, hc]
    · simp [List.countP_cons, Event.isStarted, hs]
    · have e : fuel + (k + 1) = (fuel + k) + 1 := rfl
      rw [e]
      simp only [promptLoop]
      rw [if_pos (h0.1 _ _ _), hua, hpa, h0.2, h0.1]
      simp only [if_true]
      rw [hrun fuel]
      have e2 : n + 1 + k = n + (k + 1) := by omega
      rw [e2]
      cases promptLoop S E P c W m fuel (n + (k + 1)) b u1 p1 <;> simp

/-! ## `RunAs` around the loop -/

theorem cstr_of_mem (m : List Nat) (h : 0 ∈ m) :
    cstr m = some (m.takeWhile (fun c => c ≠ 0)) := by
  unfold cstr
  rw [if_pos h]

/-- With both allocations successful `RunAs` is its loop, entered with
`isOk = FALSE`, the preset user name and a zeroed password, and followed by
the scrub of both buffers. -/
theorem RunAs_entered (S : Sdk) (E : Env) (fuel : Nat) (P A U W : List Nat)
    (g1 g2 : Nat → Nat) (h1 : E.heap 0 = some g1) (h2 : E.heap 1 = some g2) :
    ∃ label, RunAs S E fuel P A U W =
      (promptLoop S E P (34 :: P ++ 34 :: 32 :: A ++ [0]) W label fuel 0 false
        ((U ++ List.replicate (S.CREDUI_MAX_USERNAME_LENGTH + 1) 0).take
          (S.CREDUI_MAX_USERNAME_LENGTH + 1))
        (List.replicate (S.CREDUI_MAX_PASSWORD_LENGTH + 1) 0)).map
        (fun o => ⟨o.isOk,
          some (List.replicate (S.CREDUI_MAX_USERNAME_LENGTH + 1) 0,
            List.replicate (S.CREDUI_MAX_PASSWORD_LENGTH + 1) 0), o.calls⟩) := by
  unfold RunAs
  rw [h1, CreateCommandLine_block]
  simp only []
  rw [cstr_of_mem _ (by simp)]
  simp only []
  obtain ⟨label, hl⟩ : ∃ label, CreateCredUILabel S (some g2)
      ((34 :: P ++ 34 :: 32 :: A ++ [0]).takeWhile (fun c => c ≠ 0)) = some (true, some label) :=
    ⟨_, CreateCredUILabel_block S g2 _⟩
  rw [h2, hl]
  simp only []
  refine ⟨label, ?_⟩
  rw [SecureZeroMemory_all _ _ (cells_length _ _), SecureZeroMemory_all _ _ (cells_length _ _)]
  simp only [Option.bind_eq_bind, Option.some_bind]
  rw [wcsncpy_whole _ _ _ (List.length_replicate _ _)]
  simp only [Option.some_bind]
  cases hloop : promptLoop S E P (34 :: P ++ 34 :: 32 :: A ++ [0]) W label fuel 0 false
    ((U ++ List.replicate (S.CREDUI_MAX_USERNAME_LENGTH + 1) 0).take
      (S.CREDUI_MAX_USERNAME_LENGTH + 1))
    (List.replicate (S.CREDUI_MAX_PASSWORD_LENGTH + 1) 0) with
  | none => simp
  | some o =>
    obtain ⟨hu, hp⟩ := promptLoop_lengths S E P _ W label false fuel 0 _ _ o hloop
    simp only [Option.some_bind, Option.map_some']
    rw [SecureZeroMemory_all _ _ hu, SecureZeroMemory_all _ _ hp]
    rfl

/-- When an allocation fails `RunAs` returns `FALSE` and calls nothing. -/
theorem RunAs_not_entered (S : Sdk) (E : Env) (fuel : Nat) (P A U W : List Nat)
    (h : E.heap 0 = none ∨ E.heap 1 = none) :
    RunAs S E fuel P A U W = some ⟨false, none, []⟩ := by
  unfold RunAs
  rcases h0 : E.heap 0 with _ | g1
  · rw [CreateCommandLine_null]
  · rcases h with h | h
    · rw [h0] at h; cases h
    · rw [CreateCommandLine_block]
      simp only []
      rw [cstr_of_mem _ (by simp)]
      simp only []
      rw [h, CreateCredUILabel_null]

/-- A finished `RunAs` either never entered the loop, or is a finished run of
the loop followed by the scrub. -/
theorem RunAs_steps (S : Sdk) (E : Env) (fuel : Nat) (P A U W : List Nat) (r : RunResult)
    (hr : RunAs S E fuel P A U W = some r) :
    r = ⟨false, none, []⟩ ∨
    ∃ label o,
      Steps S P (34 :: P ++ 34 :: 32 :: A ++ [0]) W label false
        ((U ++ List.replicate (S.CREDUI_MAX_USERNAME_LENGTH + 1) 0).take
          (S.CREDUI_MAX_USERNAME_LENGTH + 1))
        (List.replicate (S.CREDUI_MAX_PASSWORD_LENGTH + 1) 0) o ∧
      r = ⟨o.isOk,
        some (List.replicate (S.CREDUI_MAX_USERNAME_LENGTH + 1) 0,
          List.replicate (S.CREDUI_MAX_PASSWORD_LENGTH + 1) 0), o.calls⟩ := by
  rcases h0 : E.heap 0 with _ | g1
  · rw [RunAs_not_entered S E fuel P A U W (Or.inl h0)] at hr
    left; cases hr; rfl
  · rcases h1 : E.heap 1 with _ | g2
    · rw [RunAs_not_entered S E fuel P A U W (Or.inr h1)] at hr
      left; cases hr; rfl
    · obtain ⟨label, hrun⟩ := RunAs_entered S E fuel P A U W g1 g2 h0 h1
      rw [hrun, Option.map_eq_some'] at hr
      obtain ⟨o, ho, rfl⟩ := hr
      right
      exact ⟨label, o, promptLoop_steps S E P _ W label false fuel 0 _ _ o ho, rfl⟩

/-! ## The command line -/

/-- C1: for strings `P` and `A` (no NUL inside), when the allocation succeeds
`CreateCommandLine` returns `TRUE` and the NUL-terminated string in
`*commandLine` is the quote, `P`, the quote, a space and `A`, of length
`len P + len A + 3`; it returns `FALSE` exactly when the allocation fails, and no
write leaves the block. -/
theorem CreateCommandLine_correct (heap : Option (Nat → Nat)) (P A : List Nat)
    (hP : 0 ∉ P) (hA : 0 ∉ A) :
    (heap ≠ none →
      ∃ m, CreateCommandLine heap P A = some (true, some m) ∧
        cstr m = some ([34] ++ P ++ [34] ++ [32] ++ A) ∧
        ([34] ++ P ++ [34] ++ [32] ++ A).length = P.length + A.length + 3) ∧
    ((∃ m, CreateCommandLine heap P A = some (false, m)) ↔ heap = none) := by
  rcases heap with _ | g
  · refine ⟨fun h => absurd rfl h, ?_⟩
    rw [CreateCommandLine_null]
    simp
  · refine ⟨fun _ => ⟨_, CreateCommandLine_block g P A, ?_, ?_⟩, ?_⟩
    · have h0 : 0 ∉ [34] ++ P ++ [34] ++ [32] ++ A := by simp [hP, hA]
      have := cstr_terminated ([34] ++ P ++ [34] ++ [32] ++ A) [] h0
      simpa using this
    · simp only [List.length_append, List.length_singleton]
      omega
    · rw [CreateCommandLine_block]
      simp

/-- With both allocations successful and `k` rejected logons first, `RunAs`
is the loop from iteration `k` on, after `k` prompts and `k` failed creation
attempts. -/
theorem RunAs_after_rejections (S : Sdk) (E : Env) (fuel k : Nat) (P A U W : List Nat)
    (g1 g2 : Nat → Nat) (h1 : E.heap 0 = some g1) (h2 : E.heap 1 = some g2)
    (hrej : ∀ i, i < k → E.rejectsAt S i) (hk : k < fuel) :
    ∃ (label u1 p1 : List Nat) (pre : List Event) (f : Nat),
      fuel = f + 1 + k ∧
      pre.countP Event.isPrompt = k ∧ pre.countP Event.isCreate = k ∧
      pre.countP Event.isStarted = 0 ∧
      RunAs S E fuel P A U W =
        (promptLoop S E P (34 :: P ++ 34 :: 32 :: A ++ [0]) W label (f + 1) k false u1 p1).map
          (fun o => ⟨o.isOk,
            some (List.replicate (S.CREDUI_MAX_USERNAME_LENGTH + 1) 0,
              List.replicate (S.CREDUI_MAX_PASSWORD_LENGTH + 1) 0), pre ++ o.calls⟩) := by
  obtain ⟨label, hrun⟩ := RunAs_entered S E fuel P A U W g1 g2 h1 h2
  obtain ⟨u1, p1, pre, hp, hc, hs, hloop⟩ :=
    promptLoop_rejected S E P (34 :: P ++ 34 :: 32 :: A ++ [0]) W label false k 0
      ((U ++ List.replicate (S.CREDUI_MAX_USERNAME_LENGTH + 1) 0).take
        (S.CREDUI_MAX_USERNAME_LENGTH + 1))
      (List.replicate (S.CREDUI_MAX_PASSWORD_LENGTH + 1) 0)
      (fun i hi => by rw [Nat.zero_add]; exact hrej i hi)
  have hfuel : fuel = (fuel - k - 1) + 1 + k := by omega
  refine ⟨label, u1, p1, pre, fuel - k - 1, hfuel, hp, hc, hs, ?_⟩
  rw [hrun]
  conv_lhs => rw [hfuel]
  rw [hloop, Nat.zero_add]
  cases promptLoop S E P (34 :: P ++ 34 :: 32 :: A ++ [0]) W label (fuel - k - 1 + 1) k false
    u1 p1 <;> rfl

/-- C1, worked: `C:\tools\app.exe` and `--flag` give the command line
`"C:\tools\app.exe" --flag` of 16 + 6 + 3 characters. -/
theorem CreateCommandLine_correct_witness :
    0 ∉ appPath ∧ 0 ∉ flagArgs ∧
    CreateCommandLine (some (fun _ => 7)) appPath flagArgs =
      some (true, some (appCommand ++ [0])) ∧
    (∃ m, CreateCommandLine (some (fun _ => 7)) appPath flagArgs = some (true, some m) ∧
      cstr m = some ([34] ++ appPath ++ [34] ++ [32] ++ flagArgs) ∧
      ([34] ++ appPath ++ [34] ++ [32] ++ flagArgs).length =
        appPath.length + flagArgs.length + 3) ∧
    [34] ++ appPath ++ [34] ++ [32] ++ flagArgs = appCommand ∧ appCommand.length = 25 :=
  ⟨by decide, by decide, rfl,
    (CreateCommandLine_correct (some (fun _ => 7)) appPath flagArgs (by decide) (by decide)).1
      (by simp),
    rfl, rfl⟩

/-! ## The credential prompt loop -/

/-- C2: once both allocations have succeeded (the prompt loop is entered),
every finished `RunAs` has made at least one call and both the `userName` and
the `password` array hold only zeros when it returns; and `RunAs` does finish,
within `k + 1` iterations, whenever iteration `k` ends the loop (a cancelled
prompt, a started process or a failure other than a logon failure). -/
theorem RunAs_scrubs_credentials (S : Sdk) (E : Env) (P A U W : List Nat) (g1 g2 : Nat → Nat)
    (h1 : E.heap 0 = some g1) (h2 : E.heap 1 = some g2) :
    (∀ fuel r, RunAs S E fuel P A U W = some r →
      r.calls ≠ [] ∧
      r.buffers = some (List.replicate (S.CREDUI_MAX_USERNAME_LENGTH + 1) 0,
        List.replicate (S.CREDUI_MAX_PASSWORD_LENGTH + 1) 0)) ∧
    (∀ k fuel, E.endsAt S k → k < fuel → ∃ r, RunAs S E fuel P A U W = some r) := by
  constructor
  · intro fuel r hr
    obtain ⟨label, hrun⟩ := RunAs_entered S E fuel P A U W g1 g2 h1 h2
    rw [hrun, Option.map_eq_some'] at hr
    obtain ⟨o, ho, rfl⟩ := hr
    obtain ⟨code, u1, p1, rest, hfirst⟩ :=
      Steps.first S P _ W label false _ _ o (promptLoop_steps S E P _ W label false fuel 0 _ _ o ho)
    refine ⟨?_, rfl⟩
    show o.calls ≠ []
    rw [hfirst]
    simp
  · intro k fuel hend hk
    obtain ⟨label, hrun⟩ := RunAs_entered S E fuel P A U W g1 g2 h1 h2
    obtain ⟨o, ho⟩ := promptLoop_returns S E P (34 :: P ++ 34 :: 32 :: A ++ [0]) W label false
      fuel 0 k _ _ (by rw [Nat.zero_add]; exact hend) hk
    rw [hrun, ho]
    exact ⟨_, rfl⟩

/-- C2, worked: wrong password twice, then a correct one; both buffers are
zero at the return. -/
theorem RunAs_scrubs_credentials_witness :
    wrongTwice.heap 0 = some (fun _ => 7) ∧ wrongTwice.heap 1 = some (fun _ => 7) ∧
    wrongTwice.endsAt demoSdk 2 ∧
    (∃ r, RunAs demoSdk wrongTwice 3 appPath flagArgs alice toolsDir = some r ∧
      r.buffers = some (List.replicate 9 0, List.replicate 7 0)) := by
  have hend : wrongTwice.endsAt demoSdk 2 := by
    intro m u p u1 p1 a c w _
    simp [wrongTwice, scripted]
  have h := RunAs_scrubs_credentials demoSdk wrongTwice appPath flagArgs alice toolsDir
    (fun _ => 7) (fun _ => 7) rfl rfl
  obtain ⟨r, hr⟩ := h.2 2 3 hend (by omega)
  exact ⟨rfl, rfl, hend, r, hr, (h.1 3 r hr).2⟩

/-- C3 as written fails: wrong password `bad` twice, then `good`; the password
buffers handed to the three prompts are zeros, then `bad`, then `bad` again:
the second and third prompts start with the rejected password still in the
buffer. -/
theorem RunAs_password_kept_on_retry :
    (RunAs demoSdk wrongTwice 3 appPath flagArgs alice toolsDir).map
        (fun r => r.calls.filterMap Event.passwordIn) =
      some [[0, 0, 0, 0, 0, 0, 0], [98, 97, 100, 0, 0, 0, 0], [98, 97, 100, 0, 0, 0, 0]] ∧
    [98, 97, 100, 0, 0, 0, 0] ≠ List.replicate (demoSdk.CREDUI_MAX_PASSWORD_LENGTH + 1) 0 := by
  constructor
  · rfl
  · decide

/-- C3, amended: in every finished `RunAs` that made a call, the first call is
a prompt handed an all-zero password buffer; and of two prompts with no prompt
in between, the later one is handed the password buffer exactly as the earlier
one left it (the code does not zero it after a logon failure). -/
theorem RunAs_password_between_prompts (S : Sdk) (E : Env) (fuel : Nat) (P A U W : List Nat)
    (r : RunResult) (hr : RunAs S E fuel P A U W = some r) :
    (r.calls ≠ [] →
      ∃ m u code u1 p1 rest, r.calls =
        Event.prompt m u (List.replicate (S.CREDUI_MAX_PASSWORD_LENGTH + 1) 0) code u1 p1 ::
          rest) ∧
    (∀ (pre mid post : List Event) (m1 ui pi : List Nat) (code : Nat) (u1 p1 : List Nat)
        (m2 ui2 pi2 : List Nat) (code2 : Nat) (u2 p2 : List Nat),
      r.calls = pre ++ Event.prompt m1 ui pi code u1 p1 ::
        (mid ++ Event.prompt m2 ui2 pi2 code2 u2 p2 :: post) →
      (∀ e ∈ mid, e.isPrompt = false) → pi2 = p1) := by
  rcases RunAs_steps S E fuel P A U W r hr with rfl | ⟨label, o, hsteps, rfl⟩
  · refine ⟨fun h => absurd rfl h, ?_⟩
    intro pre mid post m1 ui pi code u1 p1 m2 ui2 pi2 code2 u2 p2 hc _
    simp at hc
  · constructor
    · intro _
      obtain ⟨code, u1, p1, rest, hfirst⟩ := Steps.first S P _ W label false _ _ o hsteps
      exact ⟨_, _, _, _, _, _, hfirst⟩
    · intro pre mid post m1 ui pi code u1 p1 m2 ui2 pi2 code2 u2 p2 hc hmid
      exact (Steps.carried S P _ W label false _ _ o hsteps pre mid post m1 ui pi code u1 p1
        m2 ui2 pi2 code2 u2 p2 hc hmid).2

/-- C3 amended, worked: one wrong password, then the prompt is cancelled; the
second prompt is handed the password `bad` the first one left. -/
theorem RunAs_password_between_prompts_witness :
    RunAs demoSdk wrongThenCancel 2 appPath flagArgs alice toolsDir = some wrongThenCancelRun ∧
    wrongThenCancelRun.calls.filterMap Event.passwordIn =
      [List.replicate 7 0, badWord ++ List.replicate 4 0] ∧
    badWord ++ List.replicate 4 0 = badWord ++ List.replicate 4 0 :=
  ⟨rfl, rfl,
    (RunAs_password_between_prompts demoSdk wrongThenCancel 2 appPath flagArgs alice toolsDir
      wrongThenCancelRun rfl).2 []
      [Event.create (bob ++ List.replicate 6 0) (badWord ++ List.replicate 4 0) appPath
        (appCommand ++ [0]) toolsDir (Launch.failed 1326), Event.showLastError] []
      (appCommand ++ [0]) (alice ++ [0, 0, 0, 0]) (List.replicate 7 0) 0
      (bob ++ List.replicate 6 0) (badWord ++ List.replicate 4 0)
      (appCommand ++ [0]) (bob ++ List.replicate 6 0) (badWord ++ List.replicate 4 0) 1223
      (bob ++ List.replicate 6 0) (badWord ++ List.replicate 4 0) rfl (by decide)⟩

/-- C4: with both allocations successful, in every finished `RunAs` a creation
attempt that failed with `ERROR_LOGON_FAILURE` is followed by the error display
and the next prompt, and a creation attempt with any other outcome is followed
by no prompt and no creation attempt (only the error display); and `k`
rejected logons followed by a submitted prompt whose creation ends in `final`,
not a logon failure, make `RunAs` finish with exactly `k + 1` prompts and
`k + 1` creation attempts, returning `TRUE` with exactly one successful
creation when `final` is a success, and `FALSE` with none otherwise. -/
theorem RunAs_retry_classification (S : Sdk) (E : Env) (P A U W : List Nat)
    (g1 g2 : Nat → Nat) (h1 : E.heap 0 = some g1) (h2 : E.heap 1 = some g2) :
    (∀ fuel r, RunAs S E fuel P A U W = some r →
      ∀ (pre post : List Event) (un pw a cl w : List Nat) (res : Launch),
        r.calls = pre ++ Event.create un pw a cl w res :: post →
          (res = Launch.failed S.ERROR_LOGON_FAILURE →
            ∃ m1 ui pi code u1 p1 rest,
              post = Event.showLastError :: Event.prompt m1 ui pi code u1 p1 :: rest) ∧
          (res ≠ Launch.failed S.ERROR_LOGON_FAILURE →
            ∀ e ∈ post, e.isPrompt = false ∧ e.isCreate = false)) ∧
    (∀ (k fuel : Nat) (final : Launch),
      (∀ i, i < k → E.rejectsAt S i) →
      (∀ m u p, (E.CredUIPromptForCredentialsW k m u p).code = 0) →
      (∀ u1 p1 a c w, E.CreateProcessWithLogonW k u1 p1 a c w = final) →
      final ≠ Launch.failed S.ERROR_LOGON_FAILURE → k < fuel →
        ∃ r, RunAs S E fuel P A U W = some r ∧
          r.isOk = decide (final = Launch.started) ∧
          r.calls.countP Event.isPrompt = k + 1 ∧
          r.calls.countP Event.isCreate = k + 1 ∧
          r.calls.countP Event.isStarted = if final = Launch.started then 1 else 0) := by
  constructor
  · intro fuel r hr pre post un pw a cl w res hc
    rcases RunAs_steps S E fuel P A U W r hr with rfl | ⟨label, o, hsteps, rfl⟩
    · simp at hc
    · obtain ⟨hyes, hno⟩ := Steps.after_create S P _ W label false _ _ o hsteps
        pre post un pw a cl w res hc
      refine ⟨hyes, fun hne e he => ?_⟩
      rw [hno hne e he]
      exact ⟨rfl, rfl⟩
  · intro k fuel final hrej hsub hfinal hne hk
    obtain ⟨label, u1, p1, pre, f, _, hp, hc, hs, hrun⟩ :=
      RunAs_after_rejections S E fuel k P A U W g1 g2 h1 h2 hrej hk
    rw [hrun]
    simp only [promptLoop]
    rw [if_pos (hsub _ _ _), hfinal]
    cases final with
    | started =>
      refine ⟨_, rfl, rfl, ?_, ?_, ?_⟩
      · simp [List.countP_cons, Event.isPrompt, hp]
      · simp [List.countP_cons, Event.isCreate, hc]
      · simp [List.countP_cons, Event.isStarted, hs]
    | failed errCode =>
      have herr : errCode ≠ S.ERROR_LOGON_FAILURE := fun e => hne (by rw [e])
      simp only [if_neg herr]
      refine ⟨_, rfl, ?_, ?_, ?_, ?_⟩
      · simp
      · simp [List.countP_cons, Event.isPrompt, hp]
      · simp [List.countP_cons, Event.isCreate, hc]
      · simp [List.countP_cons, Event.isStarted, hs]

/-- C4, worked: wrong password twice then a correct one gives three prompts,
three creation attempts, one successful creation and `TRUE`. -/
theorem RunAs_retry_classification_witness :
    (∀ i, i < 2 → wrongTwice.rejectsAt demoSdk i) ∧
    (∃ r, RunAs demoSdk wrongTwice 3 appPath flagArgs alice toolsDir = some r ∧
      r.isOk = true ∧ r.calls.countP Event.isPrompt = 3 ∧
      r.calls.countP Event.isCreate = 3 ∧ r.calls.countP Event.isStarted = 1) := by
  have hrej : ∀ i, i < 2 → wrongTwice.rejectsAt demoSdk i := by
    intro i hi
    interval_cases i <;> exact ⟨fun _ _ _ => rfl, fun _ _ _ _ _ => rfl⟩
  refine ⟨hrej, ?_⟩
  exact (RunAs_retry_classification demoSdk wrongTwice appPath flagArgs alice toolsDir
    (fun _ => 7) (fun _ => 7) rfl rfl).2 2 3 Launch.started hrej (fun _ _ _ => rfl)
    (fun _ _ _ _ _ => rfl) (by decide) (by omega)

/-- C5: with both allocations successful, in every finished `RunAs` a prompt
that returns a code other than `NO_ERROR` is the last call made (no creation
attempt and no prompt follows) and `RunAs` returns `FALSE`; and `k` rejected
logons followed by such a prompt make `RunAs` finish with `FALSE`, `k + 1`
prompts and `k` creation attempts, so none at all when the first prompt is
cancelled. -/
theorem RunAs_cancel (S : Sdk) (E : Env) (P A U W : List Nat)
    (g1 g2 : Nat → Nat) (h1 : E.heap 0 = some g1) (h2 : E.heap 1 = some g2) :
    (∀ fuel r, RunAs S E fuel P A U W = some r →
      ∀ (pre post : List Event) (m ui pi : List Nat) (code : Nat) (u1 p1 : List Nat),
        r.calls = pre ++ Event.prompt m ui pi code u1 p1 :: post → code ≠ 0 →
          post = [] ∧ r.isOk = false) ∧
    (∀ (k fuel : Nat),
      (∀ i, i < k → E.rejectsAt S i) →
      (∀ m u p, (E.CredUIPromptForCredentialsW k m u p).code ≠ 0) → k < fuel →
        ∃ r, RunAs S E fuel P A U W = some r ∧ r.isOk = false ∧
          r.calls.countP Event.isPrompt = k + 1 ∧ r.calls.countP Event.isCreate = k) := by
  constructor
  · intro fuel r hr pre post m ui pi code u1 p1 hc hcode
    rcases RunAs_steps S E fuel P A U W r hr with rfl | ⟨label, o, hsteps, rfl⟩
    · simp at hc
    · exact Steps.cancel_last S P _ W label false _ _ o hsteps pre post m ui pi code u1 p1 hc
        hcode
  · intro k fuel hrej hcancel hk
    obtain ⟨label, u1, p1, pre, f, _, hp, hc, hs, hrun⟩ :=
      RunAs_after_rejections S E fuel k P A U W g1 g2 h1 h2 hrej hk
    rw [hrun]
    simp only [promptLoop]
    rw [if_neg (hcancel _ _ _)]
    refine ⟨_, rfl, rfl, ?_, ?_⟩
    · simp [List.countP_cons, Event.isPrompt, hp]
    · simp [List.countP_cons, Event.isCreate, hc]

/-- C5, worked: the very first prompt is cancelled; one prompt, no creation
attempt, `FALSE`. -/
theorem RunAs_cancel_witness :
    (∀ m u p, ((scripted []).CredUIPromptForCredentialsW 0 m u p).code ≠ 0) ∧
    (∃ r, RunAs demoSdk (scripted []) 1 appPath flagArgs alice toolsDir = some r ∧
      r.isOk = false ∧ r.calls.countP Event.isPrompt = 1 ∧
      r.calls.countP Event.isCreate = 0) := by
  have hcancel : ∀ m u p, ((scripted []).CredUIPromptForCredentialsW 0 m u p).code ≠ 0 := by
    intro m u p
    simp [scripted]
  refine ⟨hcancel, ?_⟩
  exact (RunAs_cancel demoSdk (scripted []) appPath flagArgs alice toolsDir
    (fun _ => 7) (fun _ => 7) rfl rfl).2 0 1 (fun i hi => absurd hi (by omega)) hcancel
    (by omega)

/-- C9: for strings `P` and `A` (no NUL inside), every creation attempt of a
finished `RunAs` is made with application name `P`, with the very block
`CreateCommandLine` built, holding the string quote, `P`, quote, space, `A`,
with current directory `W`, and comes right after a submitted prompt, with the
user name and password buffers exactly as that prompt left them. -/
theorem RunAs_launch_arguments (S : Sdk) (E : Env) (fuel : Nat) (P A U W : List Nat)
    (hP : 0 ∉ P) (hA : 0 ∉ A) (r : RunResult) (hr : RunAs S E fuel P A U W = some r)
    (pre post : List Event) (un pw a cl w : List Nat) (res : Launch)
    (hc : r.calls = pre ++ Event.create un pw a cl w res :: post) :
    a = P ∧ CreateCommandLine (E.heap 0) P A = some (true, some cl) ∧
      cstr cl = some ([34] ++ P ++ [34] ++ [32] ++ A) ∧ w = W ∧
      ∃ pre1 m ui pi, pre = pre1 ++ [Event.prompt m ui pi 0 un pw] := by
  rcases h0 : E.heap 0 with _ | g1
  · rw [RunAs_not_entered S E fuel P A U W (Or.inl h0)] at hr
    cases hr
    simp at hc
  · rcases RunAs_steps S E fuel P A U W r hr with rfl | ⟨label, o, hsteps, rfl⟩
    · simp at hc
    · obtain ⟨ha, hcl, hw, hprev⟩ := Steps.create_args S P _ W label false _ _ o hsteps
        pre post un pw a cl w res hc
      refine ⟨ha, ?_, ?_, hw, hprev⟩
      · rw [hcl, CreateCommandLine_block]
      · rw [hcl]
        have h0 : 0 ∉ [34] ++ P ++ [34] ++ [32] ++ A := by simp [hP, hA]
        have := cstr_terminated ([34] ++ P ++ [34] ++ [32] ++ A) [] h0
        simpa using this

/-- C9, worked: `C:\tools\app.exe` with `--flag`, user `alice`, directory
`C:\tools`, valid credentials at once: the one creation attempt gets the
command line `"C:\tools\app.exe" --flag` and the directory `C:\tools`. -/
theorem RunAs_launch_arguments_witness :
    RunAs demoSdk rightAway 1 appPath flagArgs alice toolsDir = some rightAwayRun ∧
    rightAwayRun.calls =
      [Event.prompt (appCommand ++ [0]) (alice ++ [0, 0, 0, 0]) (List.replicate 7 0) 0
        (alice ++ [0, 0, 0, 0]) (goodWord ++ [0, 0, 0])] ++
      Event.create (alice ++ [0, 0, 0, 0]) (goodWord ++ [0, 0, 0]) appPath
        (appCommand ++ [0]) toolsDir Launch.started :: [] ∧
    cstr (appCommand ++ [0]) = some ([34] ++ appPath ++ [34] ++ [32] ++ flagArgs) ∧
    [34] ++ appPath ++ [34] ++ [32] ++ flagArgs = appCommand :=
  ⟨rfl, rfl,
    (RunAs_launch_arguments demoSdk rightAway 1 appPath flagArgs alice toolsDir
      (by decide) (by decide) rightAwayRun rfl
      [Event.prompt (appCommand ++ [0]) (alice ++ [0, 0, 0, 0]) (List.replicate 7 0) 0
        (alice ++ [0, 0, 0, 0]) (goodWord ++ [0, 0, 0])] []
      (alice ++ [0, 0, 0, 0]) (goodWord ++ [0, 0, 0]) appPath (appCommand ++ [0]) toolsDir
      Launch.started rfl).2.2.1,
    rfl⟩

/-- C10: in every finished `RunAs`, of two prompts with no prompt in between,
the later one is handed the `userName` buffer exactly as the earlier one left
it: the code does not touch the buffer between the two prompts, and the
preselected name is not put back. -/
theorem RunAs_userName_carried (S : Sdk) (E : Env) (fuel : Nat) (P A U W : List Nat)
    (r : RunResult) (hr : RunAs S E fuel P A U W = some r)
    (pre mid post : List Event) (m1 ui pi : List Nat) (code : Nat) (u1 p1 : List Nat)
    (m2 ui2 pi2 : List Nat) (code2 : Nat) (u2 p2 : List Nat)
    (hc : r.calls = pre ++ Event.prompt m1 ui pi code u1 p1 ::
      (mid ++ Event.prompt m2 ui2 pi2 code2 u2 p2 :: post))
    (hmid : ∀ e ∈ mid, e.isPrompt = false) : ui2 = u1 := by
  rcases RunAs_steps S E fuel P A U W r hr with rfl | ⟨label, o, hsteps, rfl⟩
  · simp at hc
  · exact (Steps.carried S P _ W label false _ _ o hsteps pre mid post m1 ui pi code u1 p1
      m2 ui2 pi2 code2 u2 p2 hc hmid).1

/-- C10, worked: `alice` is preselected, the user enters `bob` with a wrong
password; the second prompt is handed `bob`, not `alice`. -/
theorem RunAs_userName_carried_witness :
    RunAs demoSdk wrongThenCancel 2 appPath flagArgs alice toolsDir = some wrongThenCancelRun ∧
    bob ++ List.replicate 6 0 = bob ++ List.replicate 6 0 ∧
    bob ++ List.replicate 6 0 ≠ alice ++ [0, 0, 0, 0] :=
  ⟨rfl,
    RunAs_userName_carried demoSdk wrongThenCancel 2 appPath flagArgs alice toolsDir
      wrongThenCancelRun rfl []
      [Event.create (bob ++ List.replicate 6 0) (badWord ++ List.replicate 4 0) appPath
        (appCommand ++ [0]) toolsDir (Launch.failed 1326), Event.showLastError] []
      (appCommand ++ [0]) (alice ++ [0, 0, 0, 0]) (List.replicate 7 0) 0
      (bob ++ List.replicate 6 0) (badWord ++ List.replicate 4 0)
      (appCommand ++ [0]) (bob ++ List.replicate 6 0) (badWord ++ List.replicate 4 0) 1223
      (bob ++ List.replicate 6 0) (badWord ++ List.replicate 4 0) rfl (by decide),
    by decide⟩

/-! ## The preset user name -/

/-- The part of C6 the code keeps: a preselected name `U` (no NUL inside) of at
most `CREDUI_MAX_USERNAME_LENGTH` characters is the string the first prompt
finds in the `userName` buffer, and the copy stays inside the buffer. -/
theorem RunAs_userName_fits (S : Sdk) (E : Env) (fuel : Nat) (P A U W : List Nat)
    (r : RunResult) (hU : 0 ∉ U) (hlen : U.length ≤ S.CREDUI_MAX_USERNAME_LENGTH)
    (hr : RunAs S E fuel P A U W = some r) (hcalls : r.calls ≠ []) :
    ∃ m u p code u1 p1 rest, r.calls = Event.prompt m u p code u1 p1 :: rest ∧
      u.length = S.CREDUI_MAX_USERNAME_LENGTH + 1 ∧ cstr u = some U := by
  rcases RunAs_steps S E fuel P A U W r hr with rfl | ⟨label, o, hsteps, rfl⟩
  · exact absurd rfl hcalls
  · obtain ⟨code, u1, p1, rest, hfirst⟩ := Steps.first S P _ W label false _ _ o hsteps
    refine ⟨_, _, _, _, _, _, _, hfirst, by simp, ?_⟩
    rw [wcsncpy_block_short U _ (by omega)]
    have hpos : S.CREDUI_MAX_USERNAME_LENGTH + 1 - U.length =
        (S.CREDUI_MAX_USERNAME_LENGTH - U.length) + 1 := by omega
    rw [hpos, List.replicate_succ]
    exact cstr_terminated U _ hU

/-- C6 at the failing inputs: for a preselected name `U` (no NUL inside)
longer than `CREDUI_MAX_USERNAME_LENGTH`, the `userName` buffer handed to the
first prompt is filled to its last cell with the first
`CREDUI_MAX_USERNAME_LENGTH + 1` characters of `U` and holds no NUL, so the
string in it is not `U` cut to `CREDUI_MAX_USERNAME_LENGTH` characters. -/
theorem RunAs_userName_overlong (S : Sdk) (E : Env) (fuel : Nat) (P A U W : List Nat)
    (r : RunResult) (hU : 0 ∉ U) (hlen : S.CREDUI_MAX_USERNAME_LENGTH < U.length)
    (hr : RunAs S E fuel P A U W = some r) (hcalls : r.calls ≠ []) :
    ∃ m p code u1 p1 rest,
      r.calls = Event.prompt m (U.take (S.CREDUI_MAX_USERNAME_LENGTH + 1)) p code u1 p1 ::
        rest ∧
      (U.take (S.CREDUI_MAX_USERNAME_LENGTH + 1)).length = S.CREDUI_MAX_USERNAME_LENGTH + 1 ∧
      cstr (U.take (S.CREDUI_MAX_USERNAME_LENGTH + 1)) = none ∧
      cstr (U.take (S.CREDUI_MAX_USERNAME_LENGTH + 1)) ≠
        some (U.take S.CREDUI_MAX_USERNAME_LENGTH) := by
  rcases RunAs_steps S E fuel P A U W r hr with rfl | ⟨label, o, hsteps, rfl⟩
  · exact absurd rfl hcalls
  · obtain ⟨code, u1, p1, rest, hfirst⟩ := Steps.first S P _ W label false _ _ o hsteps
    rw [wcsncpy_block_long U _ (by omega)] at hfirst
    have hnone : cstr (U.take (S.CREDUI_MAX_USERNAME_LENGTH + 1)) = none :=
      cstr_unterminated _ (fun h => hU (List.mem_of_mem_take h))
    refine ⟨_, _, _, _, _, _, hfirst, ?_, hnone, ?_⟩
    · rw [List.length_take]
      omega
    · rw [hnone]
      simp

/-- C6, worked with a user name length of 5: for the preselected name
`abcdefg` the six cells of the buffer hold `abcdef` at the first prompt, with
no NUL. -/
theorem RunAs_userName_overlong_witness :
    (∃ r, RunAs tinySdk rightAway 1 [97] [98] [97, 98, 99, 100, 101, 102, 103] toolsDir =
        some r ∧
      r.calls.head? = some (Event.prompt [34, 97, 34, 32, 98, 0] [97, 98, 99, 100, 101, 102]
        [0, 0, 0, 0, 0] 0 [97, 108, 105, 99, 101, 0] [103, 111, 111, 100, 0])) ∧
    cstr [97, 98, 99, 100, 101, 102] = none := by
  refine ⟨⟨_, rfl, rfl⟩, ?_⟩
  obtain ⟨m, p, code, u1, p1, rest, _, _, hnone, _⟩ :=
    RunAs_userName_overlong tinySdk rightAway 1 [97] [98] [97, 98, 99, 100, 101, 102, 103]
      toolsDir _ (by decide) (by decide) rfl (by decide)
  exact hnone

/-! ## The prompt label -/

/-- The part of C7 the code keeps: a command line `C` (no NUL inside) of at
most `CREDUI_MAX_MESSAGE_LENGTH` characters is copied whole, with its NUL, and
the copy stays inside the `len C + 1` cells allocated. -/
theorem CreateCredUILabel_fits (S : Sdk) (g : Nat → Nat) (C : List Nat) (hC : 0 ∉ C)
    (hlen : C.length ≤ S.CREDUI_MAX_MESSAGE_LENGTH) :
    CreateCredUILabel S (some g) C = some (true, some (C ++ [0])) ∧
      cstr (C ++ [0]) = some C := by
  refine ⟨?_, cstr_terminated C [] hC⟩
  rw [CreateCredUILabel_block]
  have hmin : min C.length S.CREDUI_MAX_MESSAGE_LENGTH = C.length := by omega
  rw [hmin, wcsncpy_block_short C _ (by omega)]
  have h1 : 1 + C.length - C.length = 1 := by omega
  have hdrop : (cells (C.length + 1) g).drop (1 + C.length) = [] := by
    apply List.eq_nil_of_length_eq_zero
    simp [cells_length]
    omega
  rw [h1, hdrop]
  simp

/-- C7 at the failing inputs: for a command line `C` (no NUL inside) longer
than `CREDUI_MAX_MESSAGE_LENGTH`, `CreateCredUILabel` returns `TRUE` and stays
inside the `len C + 1` cells allocated, but it copies
`CREDUI_MAX_MESSAGE_LENGTH + 1` characters and writes no NUL: the string in
`*label` is not the first `CREDUI_MAX_MESSAGE_LENGTH` characters of `C`. -/
theorem CreateCredUILabel_overlong (S : Sdk) (g : Nat → Nat) (C : List Nat) (hC : 0 ∉ C)
    (hlen : S.CREDUI_MAX_MESSAGE_LENGTH < C.length) :
    ∃ m, CreateCredUILabel S (some g) C = some (true, some m) ∧
      m.length = C.length + 1 ∧
      m = C.take (S.CREDUI_MAX_MESSAGE_LENGTH + 1) ++
        (cells (C.length + 1) g).drop (S.CREDUI_MAX_MESSAGE_LENGTH + 1) ∧
      cstr m ≠ some (C.take S.CREDUI_MAX_MESSAGE_LENGTH) := by
  have hmin : min C.length S.CREDUI_MAX_MESSAGE_LENGTH = S.CREDUI_MAX_MESSAGE_LENGTH := by
    omega
  have hblock := CreateCredUILabel_block S g C
  rw [hmin, wcsncpy_block_long C _ (by omega), Nat.add_comm 1] at hblock
  refine ⟨_, hblock, ?_, rfl, ?_⟩
  · simp only [List.length_append, List.length_take, List.length_drop, cells_length]
    omega
  · intro h
    unfold cstr at h
    split at h
    · rw [Option.some.injEq, List.takeWhile_append_of_pos] at h
      · have hl := congrArg List.length h
        simp only [List.length_append, List.length_take] at hl
        omega
      · intro c hc
        have : c ≠ 0 := fun e => hC (List.mem_of_mem_take (e ▸ hc))
        simpa using this
    · cases h

/-- C7, worked with a message length of 8: the ten characters `abcdefghij`
give a block with nine of them and no NUL, the rest as `malloc` left it. -/
theorem CreateCredUILabel_overlong_witness :
    CreateCredUILabel tinySdk (some (fun _ => 7))
        [97, 98, 99, 100, 101, 102, 103, 104, 105, 106] =
      some (true, some [97, 98, 99, 100, 101, 102, 103, 104, 105, 7, 7]) ∧
    cstr [97, 98, 99, 100, 101, 102, 103, 104, 105, 7, 7] = none ∧
    (∃ m, CreateCredUILabel tinySdk (some (fun _ => 7))
        [97, 98, 99, 100, 101, 102, 103, 104, 105, 106] = some (true, some m) ∧
      cstr m ≠ some [97, 98, 99, 100, 101, 102, 103, 104]) := by
  refine ⟨rfl, rfl, ?_⟩
  obtain ⟨m, hm, _, _, hne⟩ := CreateCredUILabel_overlong tinySdk (fun _ => 7)
    [97, 98, 99, 100, 101, 102, 103, 104, 105, 106] (by decide) (by decide)
  exact ⟨m, hm, hne⟩

/-! ## The administrator shortcut -/

/-- C8: when the SID string cannot be converted, or the account lookup for the
SID fails, `SuDo` returns `FALSE` and makes no call (no prompt, no process
creation); when both succeed, `SuDo` is `RunAs` run once with the account name
the lookup wrote: it returns what that `RunAs` returns and makes the calls
that `RunAs` makes. -/
theorem SuDo_delegates (S : Sdk) (E : Env) (fuel : Nat) (P A W : List Nat) :
    (E.ConvertStringSidToSid S.SDDL_LOCAL_ADMIN = none →
      SuDo S E fuel P A W = some ⟨false, none, []⟩) ∧
    (∀ sid, E.ConvertStringSidToSid S.SDDL_LOCAL_ADMIN = some sid →
      E.LookupAccountSidW sid = none → SuDo S E fuel P A W = some ⟨false, none, []⟩) ∧
    (∀ sid written adminName, E.ConvertStringSidToSid S.SDDL_LOCAL_ADMIN = some sid →
      E.LookupAccountSidW sid = some written →
      cstr (cells (S.CREDUI_MAX_USERNAME_LENGTH + 1) written) = some adminName →
        SuDo S E fuel P A W = RunAs S E fuel P A adminName W) := by
  refine ⟨fun h => ?_, fun sid h hl => ?_, fun sid written adminName h hl hname => ?_⟩
  · simp [SuDo, h]
  · simp [SuDo, h, hl]
  · simp [SuDo, h, hl, hname]

/-- C8, worked: with the SID string `LA` the account `alice` is found and
`SuDo` is the `RunAs` for `alice`; with a malformed SID string `SuDo` returns
`FALSE` without a call. -/
theorem SuDo_delegates_witness :
    SuDo demoSdk rightAway 1 appPath flagArgs toolsDir = some rightAwayRun ∧
    SuDo demoSdk rightAway 1 appPath flagArgs toolsDir =
      RunAs demoSdk rightAway 1 appPath flagArgs alice toolsDir ∧
    SuDo ⟨40, 8, 6, 1326, [88]⟩ rightAway 1 appPath flagArgs toolsDir =
      some ⟨false, none, []⟩ :=
  ⟨rfl,
    (SuDo_delegates demoSdk rightAway 1 appPath flagArgs toolsDir).2.2 544 (typed alice) alice
      rfl rfl rfl,
    (SuDo_delegates ⟨40, 8, 6, 1326, [88]⟩ rightAway 1 appPath flagArgs toolsDir).1 rfl⟩

end Xutils
